import Mathlib

/-!
Shallow embedding of `src/Fundamental.py` (Indian Fundamental Screener Pro).

The script is a single linear Streamlit flow: fetch a base table from the
TradingView screener, sleep one second, stop with an error message if the
result is empty, filter locally on ROE and P/E, fetch an enrichment table,
left-merge on `name`, derive ROCE % and rupee-crore scalings, filter on debt,
compute a percentile-rank weighted Fundamental Score, and display the table.

Numeric cells of a pandas DataFrame are modelled as `Option ℚ`: `none` stands
for a value that is not a finite number (a missing value / NaN, or the
non-finite result of a division by zero), `some q` for a finite float,
modelled as an exact rational.  Comparisons against `none` are `false`,
matching pandas, where every comparison with NaN yields `False`.
-/

/-- Value of a numeric DataFrame cell: `none` = missing/non-finite (NaN or
±inf from an unguarded division), `some q` = finite number. -/
abbrev Cell : Type := Option ℚ

/-- Pointwise subtraction on cells; any missing operand poisons the result. -/
def optSub : Cell → Cell → Cell
  | some a, some b => some (a - b)
  | _, _ => none

/-- Division on cells.  Division of a finite float by zero produces a
non-finite value (±inf or NaN), which `none` represents. -/
def optDiv : Cell → Cell → Cell
  | some a, some b => if b = 0 then none else some (a / b)
  | _, _ => none

/-- Pointwise multiplication on cells. -/
def optMul : Cell → Cell → Cell
  | some a, some b => some (a * b)
  | _, _ => none

/-- Comparison `x >= c` on a cell, pandas style: `False` on NaN. -/
def optGe (x : Cell) (c : ℚ) : Bool :=
  match x with
  | some a => decide (c ≤ a)
  | none => false

/-- Comparison `x <= c` on a cell, pandas style: `False` on NaN. -/
def optLe (x : Cell) (c : ℚ) : Bool :=
  match x with
  | some a => decide (a ≤ c)
  | none => false

/-- Series.between, inclusive on both ends (the pandas default); `False` on
NaN. -/
def optBetween (x : Cell) (lo hi : ℚ) : Bool :=
  match x with
  | some a => decide (lo ≤ a) && decide (a ≤ hi)
  | none => false

/-- Sidebar parameters of one run (`min_roe`, `min_pe`, `max_pe`,
`max_debt`). -/
structure Params where
  min_roe : ℚ
  min_pe : ℚ
  max_pe : ℚ
  max_debt : ℚ
  deriving DecidableEq

/-- One row of the base query result (columns selected in `fetch_base`). -/
structure BaseRow where
  name : String
  sector : String
  market_cap_basic : Cell
  price_earnings_ttm : Cell
  return_on_equity : Cell
  close : Cell
  change : Cell
  volume : Cell
  deriving DecidableEq

/-- One row of the enrichment query result (columns selected in
`enrich_fundamentals`). -/
structure FundRow where
  name : String
  total_revenue_ttm : Cell
  net_income_ttm : Cell
  operating_income : Cell
  total_assets : Cell
  total_current_liabilities : Cell
  total_debt : Cell
  net_debt : Cell
  free_cash_flow_ttm : Cell
  book_value_per_share_fq : Cell
  return_on_assets : Cell
  deriving DecidableEq

/-- A row of `base_df.merge(fund_df, on="name", how="left")`: the base
columns plus the enrichment columns (all NaN when the name had no match). -/
structure MergedRow extends BaseRow where
  total_revenue_ttm : Cell
  net_income_ttm : Cell
  operating_income : Cell
  total_assets : Cell
  total_current_liabilities : Cell
  total_debt : Cell
  net_debt : Cell
  free_cash_flow_ttm : Cell
  book_value_per_share_fq : Cell
  return_on_assets : Cell
  deriving DecidableEq

/-- Outcome of one `q.get_scanner_data(timeout=30)` call: a table, or one of
the two exception classes caught in `safe_query`. -/
inductive QueryResult (α : Type) : Type
  | ok (rows : List α)
  | httpError
  | otherError
  deriving DecidableEq

/-- The `safe_query` wrapper: returns the fetched table, and an empty
DataFrame on `requests.exceptions.HTTPError` or on any other exception. -/
def safe_query {α : Type} : QueryResult α → List α
  | .ok rows => rows
  | .httpError => []
  | .otherError => []

/-- Local filter on the base table:
`(return_on_equity >= min_roe) & (price_earnings_ttm.between(min_pe, max_pe))`. -/
def applyBaseFilter (p : Params) (rows : List BaseRow) : List BaseRow :=
  rows.filter fun r =>
    optGe r.return_on_equity p.min_roe
      && optBetween r.price_earnings_ttm p.min_pe p.max_pe

/-- Merged row built from a base row and its matching enrichment row. -/
def combineRow (b : BaseRow) (f : FundRow) : MergedRow :=
  { toBaseRow := b
    total_revenue_ttm := f.total_revenue_ttm
    net_income_ttm := f.net_income_ttm
    operating_income := f.operating_income
    total_assets := f.total_assets
    total_current_liabilities := f.total_current_liabilities
    total_debt := f.total_debt
    net_debt := f.net_debt
    free_cash_flow_ttm := f.free_cash_flow_ttm
    book_value_per_share_fq := f.book_value_per_share_fq
    return_on_assets := f.return_on_assets }

/-- Merged row for a base row whose name has no enrichment match: every
enrichment column is NaN. -/
def noMatchRow (b : BaseRow) : MergedRow :=
  { toBaseRow := b
    total_revenue_ttm := none
    net_income_ttm := none
    operating_income := none
    total_assets := none
    total_current_liabilities := none
    total_debt := none
    net_debt := none
    free_cash_flow_ttm := none
    book_value_per_share_fq := none
    return_on_assets := none }

/-- Rows a single base row contributes to the left merge: one row per
matching enrichment row, or a single all-NaN-enriched row if none match. -/
def mergeRow (fund : List FundRow) (b : BaseRow) : List MergedRow :=
  match fund.filter (fun f => f.name == b.name) with
  | [] => [noMatchRow b]
  | ms => ms.map fun f => combineRow b f

/-- The pandas left merge `base_df.merge(fund_df, on="name", how="left")`. -/
def mergeLeft (base : List BaseRow) (fund : List FundRow) : List MergedRow :=
  base.flatMap (mergeRow fund)

/-- Base-column projection of a merged row. -/
def baseOf (m : MergedRow) : BaseRow :=
  m.toBaseRow

/-- Division by 1e7: conversion of a rupee amount to rupee crores, as exact
(infinite-precision) arithmetic.  The float64 rounding the program applies
to this division is modelled separately by `roundF64`. -/
def toCr (x : ℚ) : ℚ :=
  x / 10000000

/-- Round-to-nearest, ties-to-even, of a positive rational to a 53-bit
significand: the significand is `q` scaled into `[2^52, 2^53)` (binade found
by `Int.log 2 q`), rounded to the nearest integer with ties to the even
integer.  This is IEEE-754 binary64 rounding for positive values in the
normal range; overflow and subnormals, far outside the magnitudes arising
here, are not modelled. -/
def rnePos (q : ℚ) : ℚ :=
  let e : ℤ := Int.log 2 q - 52
  let s : ℚ := q / 2 ^ e
  let n : ℤ := ⌊s⌋
  let m : ℤ :=
    if s - n < 1 / 2 then n
    else if 1 / 2 < s - n then n + 1
    else if n % 2 = 0 then n else n + 1
  (m : ℚ) * 2 ^ e

/-- IEEE-754 binary64 rounding of an exact rational value (normal range). -/
def roundF64 (q : ℚ) : ℚ :=
  if q = 0 then 0
  else if 0 < q then rnePos q
  else -rnePos (-q)

/-- Float64 division: the correctly rounded exact quotient. -/
def f64Div (a b : ℚ) : ℚ :=
  roundF64 (a / b)

/-- Float64 multiplication: the correctly rounded exact product. -/
def f64Mul (a b : ℚ) : ℚ :=
  roundF64 (a * b)

/-- The binary64 double nearest to 13.3 (significand 7487234380503450,
exponent -49), a representative stored float value of a currency field. -/
def d13_3 : ℚ :=
  7487234380503450 / 2 ^ 49

/-- A merged row together with the derived columns of the script:
`ROCE %`, `Market Cap (₹ Cr)`, `Revenue (₹ Cr)`, `Debt (₹ Cr)`. -/
structure DerivedRow extends MergedRow where
  roce : Cell
  mcapCr : Cell
  revCr : Cell
  debtCr : Cell
  deriving DecidableEq

/-- Derived-metric block of the script:
`ROCE % = operating_income / (total_assets - total_current_liabilities) * 100`
and the three divisions by 1e7. -/
def addDerived (m : MergedRow) : DerivedRow :=
  { toMergedRow := m
    roce := optMul
      (optDiv m.operating_income
        (optSub m.total_assets m.total_current_liabilities))
      (some 100)
    mcapCr := m.market_cap_basic.map toCr
    revCr := m.total_revenue_ttm.map toCr
    debtCr := m.total_debt.map toCr }

/-- The debt filter `df = df[df["Debt (₹ Cr)"] <= max_debt]`. -/
def applyDebtFilter (p : Params) (rows : List DerivedRow) : List DerivedRow :=
  rows.filter fun r => optLe r.debtCr p.max_debt

/-- Pandas `Series.rank(pct=True)` (default method `average`) of a present
value `v` over the present values `xs` of its column: the average ordinal
rank of `v`, divided by the number of present values. -/
def percentileRank (xs : List ℚ) (v : ℚ) : ℚ :=
  ((xs.countP fun x => decide (x < v) : ℚ)
      + ((xs.countP fun x => decide (x = v) : ℚ) + 1) / 2)
    / (xs.length : ℚ)

/-- Rounding to one decimal place, `Series.round(1)`. -/
def round1 (x : ℚ) : ℚ :=
  (round (x * 10) : ℚ) / 10

/-- The composite score formula of the script, as a function of the four
percentile ranks:
`(roeR * 30 + roceR * 30 + invPeR * 20 + fcfR * 20).round(1)`. -/
def fundamentalScore (roeR roceR invPeR fcfR : ℚ) : ℚ :=
  round1 (roeR * 30 + roceR * 30 + invPeR * 20 + fcfR * 20)

/-- The reciprocal-P/E column `1 / df["price_earnings_ttm"]`. -/
def invPe (r : DerivedRow) : Cell :=
  optDiv (some 1) r.price_earnings_ttm

/-- Present values of a column over a table (pandas rank ignores NaN). -/
def colVals (f : DerivedRow → Cell) (rows : List DerivedRow) : List ℚ :=
  rows.filterMap f

/-- Percentile rank of row `r` in column `f` of table `rows`; NaN cells get a
NaN rank (`na_option` default `keep`). -/
def optRank (f : DerivedRow → Cell) (rows : List DerivedRow) (r : DerivedRow) :
    Cell :=
  match f r with
  | none => none
  | some v => some (percentileRank (colVals f rows) v)

/-- The `Fundamental Score` cell of row `r` of table `rows`: the weighted sum
of the four percentile ranks, rounded; NaN whenever any rank is NaN. -/
def scoreOf (rows : List DerivedRow) (r : DerivedRow) : Cell :=
  match optRank (fun x => x.return_on_equity) rows r,
      optRank (fun x => x.roce) rows r,
      optRank invPe rows r,
      optRank (fun x => x.free_cash_flow_ttm) rows r with
  | some a, some b, some c, some d => some (fundamentalScore a b c d)
  | _, _, _, _ => none

/-- A displayed row: derived columns plus the `Fundamental Score` cell. -/
structure ScoredRow extends DerivedRow where
  score : Cell
  deriving DecidableEq

/-- Computation of the `Fundamental Score` column over the final table. -/
def addScores (rows : List DerivedRow) : List ScoredRow :=
  rows.map fun r => { toDerivedRow := r, score := scoreOf rows r }

/-- The message shown by `st.error` when the base result is empty. -/
def errMsg : String :=
  "TradingView rejected request. Try smaller limit or no preset."

/-- Terminal display state of one run: either `st.error` + `st.stop`, or the
rendered/exported table. -/
inductive DisplayState : Type
  | errorStop (msg : String)
  | table (rows : List ScoredRow)
  deriving DecidableEq

/-- Observable blocking events of one run. -/
inductive Ev : Type
  | netCall (timeoutSec : ℕ)
  | sleep (seconds : ℕ)
  deriving DecidableEq

/-- The main execution block (`if run:`), as a function of the sidebar
parameters and the outcomes of the two network calls.  Returns the terminal
display state together with the trace of blocking events, in program order:
base fetch with timeout 30, `time.sleep(1)`, empty check (`st.error` +
`st.stop`), local ROE/PE filter, enrichment fetch with timeout 30, left
merge, derived metrics, debt filter, scores, render. -/
def runFull (p : Params) (baseRes : QueryResult BaseRow)
    (fundRes : QueryResult FundRow) : DisplayState × List Ev :=
  let base_df := safe_query baseRes
  if base_df.isEmpty then
    (.errorStop errMsg, [.netCall 30, .sleep 1])
  else
    let filtered := applyBaseFilter p base_df
    let fund_df := safe_query fundRes
    let merged := mergeLeft filtered fund_df
    let derived := merged.map addDerived
    let kept := applyDebtFilter p derived
    (.table (addScores kept), [.netCall 30, .sleep 1, .netCall 30])

example : optDiv (some 5) (some 0) = none := rfl

example : percentileRank [3, 1, 2] 2 = 2 / 3 := by
  norm_num [percentileRank, List.countP_cons, List.countP_nil]

example : fundamentalScore 1 1 1 1 = 100 := by
  norm_num [fundamentalScore, round1, round_eq, Int.floor_eq_iff]

/-! ### Helper lemmas -/

theorem round1_mono {x y : ℚ} (h : x ≤ y) : round1 x ≤ round1 y := by
  unfold round1
  have hr : round (x * 10) ≤ round (y * 10) := by
    rw [round_eq, round_eq]
    exact Int.floor_mono (by linarith)
  have : ((round (x * 10) : ℤ) : ℚ) ≤ ((round (y * 10) : ℤ) : ℚ) :=
    Int.cast_le.mpr hr
  linarith

theorem round1_hundred : round1 100 = 100 := by
  norm_num [round1, round_eq, Int.floor_eq_iff]

theorem round1_zero : round1 0 = 0 := by
  norm_num [round1, round_eq, Int.floor_eq_iff]

theorem percentileRank_pos {xs : List ℚ} {v : ℚ} (hv : v ∈ xs) :
    0 < percentileRank xs v := by
  have hn : 0 < xs.length := List.length_pos.mpr (List.ne_nil_of_mem hv)
  unfold percentileRank
  apply div_pos
  · have h1 : (0 : ℚ) ≤ (xs.countP fun x => decide (x < v) : ℕ) := by
      positivity
    have h2 : (0 : ℚ) < ((xs.countP fun x => decide (x = v) : ℕ) + 1) / 2 := by
      positivity
    linarith
  · exact_mod_cast hn

theorem percentileRank_le_one {xs : List ℚ} {v : ℚ} (hv : v ∈ xs) :
    percentileRank xs v ≤ 1 := by
  have hn : 0 < xs.length := List.length_pos.mpr (List.ne_nil_of_mem hv)
  have hEq : 1 ≤ xs.countP fun x => decide (x = v) :=
    List.countP_pos_iff.mpr ⟨v, hv, by simp⟩
  have hsum : (xs.countP fun x => decide (x < v))
      + (xs.countP fun x => decide (x = v)) ≤ xs.length := by
    have h2 := List.length_eq_countP_add_countP (fun x => decide (x < v)) xs
    have h1 : (xs.countP fun x => decide (x = v))
        ≤ xs.countP fun x => ¬(decide (x < v) : Bool) := by
      apply List.countP_mono_left
      intro x _ hx
      simp only [decide_eq_true_eq] at hx ⊢
      simp [hx]
    omega
  unfold percentileRank
  rw [div_le_one (by exact_mod_cast hn)]
  have hsq : ((xs.countP fun x => decide (x < v) : ℕ) : ℚ)
      + ((xs.countP fun x => decide (x = v) : ℕ) : ℚ) ≤ (xs.length : ℚ) := by
    exact_mod_cast hsum
  have hEq1 : (1 : ℚ) ≤ ((xs.countP fun x => decide (x = v) : ℕ) : ℚ) := by
    exact_mod_cast hEq
  linarith

theorem fundamentalScore_mono {a b c d e f g h : ℚ}
    (hab : a ≤ e) (hcd : b ≤ f) (hef : c ≤ g) (hgh : d ≤ h) :
    fundamentalScore a b c d ≤ fundamentalScore e f g h := by
  unfold fundamentalScore
  exact round1_mono (by linarith)

theorem fundamentalScore_bounds {a b c d : ℚ}
    (ha0 : 0 ≤ a) (ha1 : a ≤ 1) (hb0 : 0 ≤ b) (hb1 : b ≤ 1)
    (hc0 : 0 ≤ c) (hc1 : c ≤ 1) (hd0 : 0 ≤ d) (hd1 : d ≤ 1) :
    0 ≤ fundamentalScore a b c d ∧ fundamentalScore a b c d ≤ 100 := by
  constructor
  · have := round1_mono (x := 0) (y := a * 30 + b * 30 + c * 20 + d * 20)
      (by linarith)
    rw [round1_zero] at this
    exact this
  · have := round1_mono (x := a * 30 + b * 30 + c * 20 + d * 20) (y := 100)
      (by linarith)
    rw [round1_hundred] at this
    exact this

theorem optRank_bounds {f : DerivedRow → Cell} {rows : List DerivedRow}
    {r : DerivedRow} {q : ℚ} (hr : r ∈ rows) (hq : optRank f rows r = some q) :
    0 < q ∧ q ≤ 1 := by
  unfold optRank at hq
  cases hfr : f r with
  | none => rw [hfr] at hq; exact absurd hq (by simp)
  | some v =>
    rw [hfr] at hq
    have hv : v ∈ colVals f rows :=
      List.mem_filterMap.mpr ⟨r, hr, hfr⟩
    have := percentileRank_pos hv
    have := percentileRank_le_one hv
    cases hq
    exact ⟨by assumption, by assumption⟩

theorem int_log_eq_of {q : ℚ} {e : ℤ} (hq : 0 < q)
    (h1 : (2 : ℚ) ^ e ≤ q) (h2 : q < (2 : ℚ) ^ (e + 1)) : Int.log 2 q = e := by
  have hle : e ≤ Int.log 2 q :=
    (Int.zpow_le_iff_le_log (by norm_num) hq).mp (by exact_mod_cast h1)
  have hlt : Int.log 2 q < e + 1 :=
    (Int.lt_zpow_iff_log_lt (by norm_num) hq).mp (by exact_mod_cast h2)
  omega

theorem rnePos_round_down {q : ℚ} {e n : ℤ} (hq : 0 < q)
    (h1 : (2 : ℚ) ^ e ≤ q) (h2 : q < (2 : ℚ) ^ (e + 1))
    (hn : (n : ℚ) ≤ q / 2 ^ (e - 52)) (hlt : q / 2 ^ (e - 52) - n < 1 / 2) :
    rnePos q = (n : ℚ) * 2 ^ (e - 52) := by
  unfold rnePos
  simp only []
  rw [int_log_eq_of hq h1 h2]
  have hfl : ⌊q / 2 ^ (e - 52)⌋ = n :=
    Int.floor_eq_iff.mpr ⟨hn, by linarith⟩
  rw [hfl]
  rw [if_pos hlt]

theorem f64_d13_3_step1 :
    f64Div d13_3 10000000 = (6280747422216628 : ℚ) * 2 ^ ((-20 : ℤ) - 52) := by
  unfold f64Div roundF64
  rw [if_neg (by norm_num [d13_3]), if_pos (by norm_num [d13_3])]
  exact rnePos_round_down (by norm_num [d13_3]) (by norm_num [d13_3])
    (by norm_num [d13_3]) (by norm_num [d13_3]) (by norm_num [d13_3])

theorem f64_d13_3_step2 :
    f64Mul ((6280747422216628 : ℚ) * 2 ^ ((-20 : ℤ) - 52)) 10000000
      = (7487234380503449 : ℚ) * 2 ^ ((3 : ℤ) - 52) := by
  unfold f64Mul roundF64
  rw [if_neg (by norm_num), if_pos (by norm_num)]
  exact rnePos_round_down (by norm_num) (by norm_num) (by norm_num)
    (by norm_num) (by norm_num)

theorem f64_roundtrip_d13_3_ne :
    f64Mul (f64Div d13_3 10000000) 10000000 ≠ d13_3 := by
  rw [f64_d13_3_step1, f64_d13_3_step2]
  norm_num [d13_3]

theorem f64_roundtrip_2e7 :
    f64Mul (f64Div 20000000 10000000) 10000000 = 20000000 := by
  have ha : f64Div 20000000 10000000 = 2 := by
    unfold f64Div roundF64
    rw [if_neg (by norm_num), if_pos (by norm_num)]
    have hb := rnePos_round_down (q := (20000000 : ℚ) / 10000000) (e := 1)
      (n := 4503599627370496) (by norm_num) (by norm_num) (by norm_num)
      (by norm_num) (by norm_num)
    rw [hb]
    norm_num
  rw [ha]
  have hc : f64Mul 2 10000000 = (5368709120000000 : ℚ) * 2 ^ ((24 : ℤ) - 52) := by
    unfold f64Mul roundF64
    rw [if_neg (by norm_num), if_pos (by norm_num)]
    exact rnePos_round_down (by norm_num) (by norm_num) (by norm_num)
      (by norm_num) (by norm_num)
  rw [hc]
  norm_num

theorem optGe_eq_true {x : Cell} {c : ℚ} (h : optGe x c = true) :
    ∃ a, x = some a ∧ c ≤ a := by
  cases x with
  | none => simp [optGe] at h
  | some a => exact ⟨a, rfl, by simpa [optGe] using h⟩

theorem optLe_eq_true {x : Cell} {c : ℚ} (h : optLe x c = true) :
    ∃ a, x = some a ∧ a ≤ c := by
  cases x with
  | none => simp [optLe] at h
  | some a => exact ⟨a, rfl, by simpa [optLe] using h⟩

theorem optBetween_eq_true {x : Cell} {lo hi : ℚ}
    (h : optBetween x lo hi = true) : ∃ a, x = some a ∧ lo ≤ a ∧ a ≤ hi := by
  cases x with
  | none => simp [optBetween] at h
  | some a =>
    refine ⟨a, rfl, ?_⟩
    simpa [optBetween] using h

theorem mergeRow_toBase {fund : List FundRow} {b : BaseRow} {m : MergedRow}
    (hm : m ∈ mergeRow fund b) : m.toBaseRow = b := by
  unfold mergeRow at hm
  split at hm
  · simp only [List.mem_singleton] at hm
    subst hm
    rfl
  · simp only [List.mem_map] at hm
    obtain ⟨f, _, rfl⟩ := hm
    rfl

/-- Demo enrichment row used to instantiate proved claims on concrete data. -/
def demoFund : FundRow :=
  { name := "TCS"
    total_revenue_ttm := some 20000000
    net_income_ttm := some 3000000
    operating_income := some 10
    total_assets := some 100
    total_current_liabilities := some 50
    total_debt := some 0
    net_debt := some 0
    free_cash_flow_ttm := some 5
    book_value_per_share_fq := some 2
    return_on_assets := some 8 }

/-- Demo base row used to instantiate proved claims on concrete data. -/
def demoBase : BaseRow :=
  { name := "TCS"
    sector := "IT"
    market_cap_basic := some 30000000
    price_earnings_ttm := some 15
    return_on_equity := some 20
    close := some 3500
    change := some 1
    volume := some 100000 }

/-- Demo merged-and-derived row built from the demo base and enrichment
rows. -/
def demoDerived : DerivedRow :=
  addDerived (combineRow demoBase demoFund)

/-! ### Claims -/

/-- C1: the Fundamental Score is the weighted (30/30/20/20) sum of the
percentile ranks of return on equity, ROCE %, reciprocal P/E and free cash
flow; over any table, every computed score lies in the 0-100 range, and the
score formula is monotonically non-decreasing in each of its four
percentile-rank inputs. -/
theorem C1_fundamental_score :
    (∀ (rows : List DerivedRow) (r : DerivedRow) (s : ℚ), r ∈ rows →
        scoreOf rows r = some s → 0 ≤ s ∧ s ≤ 100)
    ∧ (∀ a b c d e f g h : ℚ, a ≤ e → b ≤ f → c ≤ g → d ≤ h →
        fundamentalScore a b c d ≤ fundamentalScore e f g h)
    ∧ (∀ a b c d : ℚ,
        fundamentalScore a b c d
          = round1 (a * 30 + b * 30 + c * 20 + d * 20)) := by
  refine ⟨?_, ?_, ?_⟩
  · intro rows r s hr hs
    unfold scoreOf at hs
    cases h1 : optRank (fun x => x.return_on_equity) rows r with
    | none => rw [h1] at hs; simp at hs
    | some a =>
      cases h2 : optRank (fun x => x.roce) rows r with
      | none => rw [h1, h2] at hs; simp at hs
      | some b =>
        cases h3 : optRank invPe rows r with
        | none => rw [h1, h2, h3] at hs; simp at hs
        | some c =>
          cases h4 : optRank (fun x => x.free_cash_flow_ttm) rows r with
          | none => rw [h1, h2, h3, h4] at hs; simp at hs
          | some d =>
            rw [h1, h2, h3, h4] at hs
            simp only [Option.some.injEq] at hs
            subst hs
            obtain ⟨ha0, ha1⟩ := optRank_bounds hr h1
            obtain ⟨hb0, hb1⟩ := optRank_bounds hr h2
            obtain ⟨hc0, hc1⟩ := optRank_bounds hr h3
            obtain ⟨hd0, hd1⟩ := optRank_bounds hr h4
            exact fundamentalScore_bounds ha0.le ha1 hb0.le hb1 hc0.le hc1
              hd0.le hd1
  · intro a b c d e f g h hab hcd hef hgh
    exact fundamentalScore_mono hab hcd hef hgh
  · intro a b c d
    rfl

/-- Witness for C1: on the one-row demo table the score is 100, inside the
0-100 range. -/
theorem C1_fundamental_score_witness : (0 : ℚ) ≤ 100 ∧ (100 : ℚ) ≤ 100 :=
  C1_fundamental_score.1 [demoDerived] demoDerived 100
    (List.mem_singleton.mpr rfl)
    (by norm_num [demoDerived, demoBase, demoFund, addDerived, combineRow,
      scoreOf, optRank, invPe, colVals, percentileRank, optDiv, optSub,
      optMul, toCr, fundamentalScore, round1, round_eq, Int.floor_eq_iff,
      List.countP_cons, List.countP_nil, List.filterMap_cons,
      List.filterMap_nil])

/-- C2: for every merged record with finite operating income, total assets
and total current liabilities, and nonzero capital employed, the derived
`ROCE %` column equals operating income divided by (total assets minus total
current liabilities), multiplied by 100. -/
theorem C2_roce_formula (m : MergedRow) (oi ta tcl : ℚ)
    (hoi : m.operating_income = some oi) (hta : m.total_assets = some ta)
    (htcl : m.total_current_liabilities = some tcl) (hne : ta - tcl ≠ 0) :
    (addDerived m).roce = some (oi / (ta - tcl) * 100) := by
  simp [addDerived, optMul, optDiv, optSub, hoi, hta, htcl, hne]

/-- Witness for C2: on the demo merged record, ROCE % is 10 / 50 * 100. -/
theorem C2_roce_formula_witness :
    (addDerived (combineRow demoBase demoFund)).roce
      = some (10 / (100 - 50) * 100) :=
  C2_roce_formula (combineRow demoBase demoFund) 10 100 50 rfl rfl rfl
    (by norm_num)

/-- C5 counterexample: under the program's float64 arithmetic the rupee-crore
scaling is not exactly reversible: for the stored double nearest 13.3,
dividing by 1e7 and multiplying the result by 1e7 (each correctly rounded)
returns a value one ulp below the original, so the roundtrip does not
recover every value exactly. -/
theorem C5_roundtrip_counterexample :
    f64Mul (f64Div d13_3 10000000) 10000000 ≠ d13_3 :=
  f64_roundtrip_d13_3_ne

/-- C5 (amended): scaling a currency field to rupee crores (market cap,
total revenue, total debt each divided by 1e7) is a pure unit conversion,
and in exact arithmetic multiplying the scaled value by 1e7 recovers every
value exactly; under the program's float64 arithmetic the roundtrip is exact
for some values (e.g. 20000000) but not for every value (it fails for the
double nearest 13.3). -/
theorem C5_crore_scaling_amended :
    (∀ x : ℚ, toCr x * 10000000 = x)
    ∧ (∀ m : MergedRow,
        (addDerived m).mcapCr = m.market_cap_basic.map toCr
        ∧ (addDerived m).revCr = m.total_revenue_ttm.map toCr
        ∧ (addDerived m).debtCr = m.total_debt.map toCr)
    ∧ f64Mul (f64Div 20000000 10000000) 10000000 = 20000000
    ∧ ∃ x : ℚ, f64Mul (f64Div x 10000000) 10000000 ≠ x := by
  refine ⟨?_, ?_, f64_roundtrip_2e7, d13_3, f64_roundtrip_d13_3_ne⟩
  · intro x
    unfold toCr
    field_simp
  · intro m
    exact ⟨rfl, rfl, rfl⟩

/-- Enrichment row whose total assets equal its total current liabilities:
its capital employed is zero, so the unguarded ROCE division is non-finite. -/
def degenerateFund : FundRow :=
  { name := "TCS"
    total_revenue_ttm := some 20000000
    net_income_ttm := some 3000000
    operating_income := some 10
    total_assets := some 50
    total_current_liabilities := some 50
    total_debt := some 0
    net_debt := some 0
    free_cash_flow_ttm := some 5
    book_value_per_share_fq := some 2
    return_on_assets := some 8 }

/-- C8: the scripts do not enforce finiteness: on a concrete input record
whose total assets equal its total current liabilities, the unguarded
division makes the derived `ROCE %` value non-finite (`none`). -/
theorem C8_roce_nonfinite :
    (addDerived (combineRow demoBase degenerateFund)).roce = none := by
  norm_num [addDerived, combineRow, degenerateFund, demoBase, optSub, optDiv,
    optMul]

/-- C3 counterexample: when the base query raises an HTTP error, the run
displays `TradingView rejected request. Try smaller limit or no preset.`,
which is not the message `no stocks matched` asserted by the claim. -/
theorem C3_message_counterexample :
    (runFull ⟨10, 5, 40, 50000⟩ QueryResult.httpError
        (QueryResult.ok [])).1 = DisplayState.errorStop errMsg
    ∧ errMsg ≠ "no stocks matched" := by
  constructor
  · rfl
  · decide

/-- C3 (amended): both exception classes of `safe_query` are caught and
replaced by an empty result set, and a failing base query ends the run in
the error display state with the script's generic rejection message (not the
message `no stocks matched`); no query exception reaches the user. -/
theorem C3_error_policy (p : Params) (fundRes : QueryResult FundRow) :
    safe_query (QueryResult.httpError (α := BaseRow)) = []
    ∧ safe_query (QueryResult.otherError (α := BaseRow)) = []
    ∧ (runFull p QueryResult.httpError fundRes).1 = .errorStop errMsg
    ∧ (runFull p QueryResult.otherError fundRes).1 = .errorStop errMsg := by
  exact ⟨rfl, rfl, rfl, rfl⟩

/-- C7: one run performs at most two blocking network calls, in program
order — the base call (timeout 30), the fixed 1-second sleep, then, only if
the run continues, the enrichment call (timeout 30) — and nothing else. -/
theorem C7_call_trace (p : Params) (baseRes : QueryResult BaseRow)
    (fundRes : QueryResult FundRow) :
    (runFull p baseRes fundRes).2 = [Ev.netCall 30, Ev.sleep 1]
    ∨ (runFull p baseRes fundRes).2
        = [Ev.netCall 30, Ev.sleep 1, Ev.netCall 30] := by
  unfold runFull
  by_cases h : (safe_query baseRes).isEmpty
  · left
    simp [h]
  · right
    simp [h]

/-- Recogniser for the `st.error` + `st.stop` display state. -/
def isErrorStop : DisplayState → Bool
  | .errorStop _ => true
  | .table _ => false

/-- C4 counterexample: with a base result containing one row that passes the
filters and an enrichment result that is empty, the run does not stop with
an error message; it continues and renders a table (empty after the debt
filter), so the claim's second part fails on the code. -/
theorem C4_enrichment_counterexample :
    (runFull ⟨10, 5, 40, 50000⟩ (QueryResult.ok [demoBase])
        (QueryResult.ok [])).1 = DisplayState.table []
    ∧ isErrorStop (runFull ⟨10, 5, 40, 50000⟩ (QueryResult.ok [demoBase])
        (QueryResult.ok [])).1 = false := by
  have h : (runFull ⟨10, 5, 40, 50000⟩ (QueryResult.ok [demoBase])
      (QueryResult.ok [])).1 = DisplayState.table [] := by
    norm_num [runFull, safe_query, applyBaseFilter, optGe, optBetween,
      demoBase, mergeLeft, mergeRow, noMatchRow, addDerived, optSub, optDiv,
      optMul, applyDebtFilter, optLe, addScores, List.filter_cons]
  exact ⟨h, by rw [h]; rfl⟩

/-- C4 (amended): when the base query returns an empty result the run ends
in the error display state (message shown, execution stopped) rather than an
exception; but when the enrichment query returns an empty result while the
base result is nonempty, the run does not stop and shows no error: it
proceeds to render a table. -/
theorem C4_empty_results (p : Params) (fundRes : QueryResult FundRow)
    (base : List BaseRow) (hb : base ≠ []) :
    (runFull p (QueryResult.ok []) fundRes).1 = .errorStop errMsg
    ∧ ∃ rows, (runFull p (QueryResult.ok base) (QueryResult.ok [])).1
        = .table rows := by
  constructor
  · rfl
  · unfold runFull
    have h : (safe_query (QueryResult.ok base)).isEmpty = false := by
      simpa [safe_query, List.isEmpty_iff] using hb
    simp only [h]
    exact ⟨_, rfl⟩

/-- Witness for C4 (amended), at the demo base row. -/
theorem C4_empty_results_witness :
    (runFull ⟨10, 5, 40, 50000⟩ (QueryResult.ok [])
        (QueryResult.ok [])).1 = .errorStop errMsg
    ∧ ∃ rows, (runFull ⟨10, 5, 40, 50000⟩ (QueryResult.ok [demoBase])
        (QueryResult.ok [])).1 = .table rows :=
  C4_empty_results ⟨10, 5, 40, 50000⟩ (QueryResult.ok []) [demoBase]
    (by simp)

/-- C6: every row of the final displayed/exported table satisfies all the
user-selected filters: its return on equity is a present value at least
`min_roe`, its P/E ratio is a present value inside `[min_pe, max_pe]`, and
its debt in rupee crores is a present value at most `max_debt`. -/
theorem C6_filter_soundness (p : Params) (baseRes : QueryResult BaseRow)
    (fundRes : QueryResult FundRow) (rows : List ScoredRow) (sr : ScoredRow)
    (hrun : (runFull p baseRes fundRes).1 = .table rows) (hmem : sr ∈ rows) :
    (∃ a, sr.return_on_equity = some a ∧ p.min_roe ≤ a)
    ∧ (∃ e, sr.price_earnings_ttm = some e ∧ p.min_pe ≤ e ∧ e ≤ p.max_pe)
    ∧ (∃ d, sr.debtCr = some d ∧ d ≤ p.max_debt) := by
  by_cases h : (safe_query baseRes).isEmpty
  · simp [runFull, h] at hrun
  · simp only [runFull, h, Bool.false_eq_true, if_false,
      DisplayState.table.injEq] at hrun
    subst hrun
    simp only [addScores, List.mem_map] at hmem
    obtain ⟨r, hrk, rfl⟩ := hmem
    obtain ⟨hder, hdebt⟩ := List.mem_filter.mp hrk
    obtain ⟨d, hd, hdle⟩ := optLe_eq_true hdebt
    simp only [List.mem_map] at hder
    obtain ⟨m, hmm, rfl⟩ := hder
    obtain ⟨b, hbf, hmb⟩ := List.mem_flatMap.mp hmm
    have hbase := mergeRow_toBase hmb
    obtain ⟨hbmem, hpred⟩ := List.mem_filter.mp hbf
    obtain ⟨hge, hbet⟩ := Bool.and_eq_true_iff.mp hpred
    obtain ⟨a, ha, hale⟩ := optGe_eq_true hge
    obtain ⟨e, he, helo, hehi⟩ := optBetween_eq_true hbet
    refine ⟨⟨a, ?_, hale⟩, ⟨e, ?_, helo, hehi⟩, ⟨d, hd, hdle⟩⟩
    · show (addDerived m).toMergedRow.toBaseRow.return_on_equity = some a
      rw [show (addDerived m).toMergedRow = m from rfl, hbase]
      exact ha
    · show (addDerived m).toMergedRow.toBaseRow.price_earnings_ttm = some e
      rw [show (addDerived m).toMergedRow = m from rfl, hbase]
      exact he

/-- The scored row produced for the demo inputs by a full run. -/
def demoScored : ScoredRow :=
  { toDerivedRow := demoDerived, score := some 100 }

/-- Witness for C6: the demo run keeps one row, and that row meets the ROE,
P/E and debt filters for the demo parameters. -/
theorem C6_filter_soundness_witness :
    (∃ a, demoScored.return_on_equity = some a ∧ (10 : ℚ) ≤ a)
    ∧ (∃ e, demoScored.price_earnings_ttm = some e
        ∧ (5 : ℚ) ≤ e ∧ e ≤ 40)
    ∧ (∃ d, demoScored.debtCr = some d ∧ d ≤ 50000) :=
  C6_filter_soundness ⟨10, 5, 40, 50000⟩ (QueryResult.ok [demoBase])
    (QueryResult.ok [demoFund]) [demoScored] demoScored
    (by norm_num [runFull, safe_query, applyBaseFilter, optGe, optBetween,
      optLe, demoScored, demoDerived, demoBase, demoFund, mergeLeft,
      mergeRow, combineRow, noMatchRow, addDerived, optSub, optDiv, optMul,
      toCr, applyDebtFilter, addScores, scoreOf, optRank, invPe, colVals,
      percentileRank, fundamentalScore, round1, round_eq, Int.floor_eq_iff,
      List.filter_cons, List.countP_cons, List.countP_nil,
      List.filterMap_cons, List.filterMap_nil])
    (List.mem_singleton.mpr rfl)

/-- C9: when the enrichment table has at most one row per name, the left
merge on `name` returns exactly the rows of the filtered base table, in
order, with every base-column value unchanged; a base row whose name is
absent from the enrichment table contributes the row whose enrichment
columns are all missing. -/
theorem C9_left_merge (base : List BaseRow) (fund : List FundRow)
    (huniq : ∀ n : String, (fund.filter fun f => f.name == n).length ≤ 1) :
    (mergeLeft base fund).map baseOf = base
    ∧ ∀ b ∈ base, (∀ f ∈ fund, f.name ≠ b.name) →
        noMatchRow b ∈ mergeLeft base fund
        ∧ (noMatchRow b).toBaseRow = b
        ∧ (noMatchRow b).total_revenue_ttm = none
        ∧ (noMatchRow b).net_income_ttm = none
        ∧ (noMatchRow b).operating_income = none
        ∧ (noMatchRow b).total_assets = none
        ∧ (noMatchRow b).total_current_liabilities = none
        ∧ (noMatchRow b).total_debt = none
        ∧ (noMatchRow b).net_debt = none
        ∧ (noMatchRow b).free_cash_flow_ttm = none
        ∧ (noMatchRow b).book_value_per_share_fq = none
        ∧ (noMatchRow b).return_on_assets = none := by
  have key : ∀ b : BaseRow, (mergeRow fund b).map baseOf = [b] := by
    intro b
    unfold mergeRow
    split
    · rfl
    next hne =>
      cases hfil : (fund.filter fun f => f.name == b.name) with
      | nil => exact absurd hfil hne
      | cons f fs =>
        have hlen := huniq b.name
        rw [hfil] at hlen
        have hfs : fs = [] := by
          cases fs with
          | nil => rfl
          | cons g gs => simp at hlen
        subst hfs
        rfl
  constructor
  · induction base with
    | nil => rfl
    | cons b rest ih =>
      show ((mergeRow fund b ++ mergeLeft rest fund).map baseOf) = b :: rest
      rw [List.map_append, key b, ih]
      rfl
  · intro b hb habs
    have hnil : (fund.filter fun f => f.name == b.name) = [] := by
      apply List.filter_eq_nil_iff.mpr
      intro f hf
      simpa using habs f hf
    have hrow : mergeRow fund b = [noMatchRow b] := by
      unfold mergeRow
      rw [hnil]
    refine ⟨?_, rfl, rfl, rfl, rfl, rfl, rfl, rfl, rfl, rfl, rfl, rfl⟩
    have hin : noMatchRow b ∈ mergeRow fund b := by
      rw [hrow]
      exact List.mem_singleton_self _
    exact List.mem_flatMap.mpr ⟨b, hb, hin⟩

/-- Witness for C9, at a one-row base table and one-row enrichment table. -/
theorem C9_left_merge_witness :
    (mergeLeft [demoBase] [demoFund]).map baseOf = [demoBase]
    ∧ ∀ b ∈ [demoBase], (∀ f ∈ [demoFund], f.name ≠ b.name) →
        noMatchRow b ∈ mergeLeft [demoBase] [demoFund]
        ∧ (noMatchRow b).toBaseRow = b
        ∧ (noMatchRow b).total_revenue_ttm = none
        ∧ (noMatchRow b).net_income_ttm = none
        ∧ (noMatchRow b).operating_income = none
        ∧ (noMatchRow b).total_assets = none
        ∧ (noMatchRow b).total_current_liabilities = none
        ∧ (noMatchRow b).total_debt = none
        ∧ (noMatchRow b).net_debt = none
        ∧ (noMatchRow b).free_cash_flow_ttm = none
        ∧ (noMatchRow b).book_value_per_share_fq = none
        ∧ (noMatchRow b).return_on_assets = none :=
  C9_left_merge [demoBase] [demoFund]
    (fun _ => List.length_filter_le _ _)

/-- C10: rows with missing numeric values are silently dropped: a base row
with a missing return on equity or P/E never passes the local ROE/PE filter,
a derived row with a missing debt value never passes the debt filter, and a
merged row with a missing `total_debt` (for example, a name the enrichment
table lacks) gets a missing `Debt (₹ Cr)` value. -/
theorem C10_missing_values_dropped :
    (∀ (p : Params) (rows : List BaseRow) (r : BaseRow),
        r.return_on_equity = none ∨ r.price_earnings_ttm = none →
        r ∉ applyBaseFilter p rows)
    ∧ (∀ (p : Params) (rows : List DerivedRow) (r : DerivedRow),
        r.debtCr = none → r ∉ applyDebtFilter p rows)
    ∧ (∀ m : MergedRow, m.total_debt = none →
        (addDerived m).debtCr = none) := by
  refine ⟨?_, ?_, ?_⟩
  · intro p rows r hmiss hmem
    have hpred := (List.mem_filter.mp hmem).2
    rcases hmiss with hroe | hpe
    · simp [optGe, hroe] at hpred
    · simp [optBetween, hpe] at hpred
  · intro p rows r hmiss hmem
    have hpred := (List.mem_filter.mp hmem).2
    simp [optLe, hmiss] at hpred
  · intro m hmiss
    simp [addDerived, hmiss]

/-- Base row with a missing return-on-equity value. -/
def missingBase : BaseRow :=
  { demoBase with return_on_equity := none }

/-- Witness for C10, at concrete rows with missing values. -/
theorem C10_missing_values_dropped_witness :
    missingBase ∉ applyBaseFilter ⟨10, 5, 40, 50000⟩ [missingBase]
    ∧ addDerived (noMatchRow demoBase) ∉ applyDebtFilter ⟨10, 5, 40, 50000⟩
        [addDerived (noMatchRow demoBase)]
    ∧ (addDerived (noMatchRow demoBase)).debtCr = none :=
  ⟨C10_missing_values_dropped.1 ⟨10, 5, 40, 50000⟩ [missingBase] missingBase
      (Or.inl rfl),
    C10_missing_values_dropped.2.1 ⟨10, 5, 40, 50000⟩
      [addDerived (noMatchRow demoBase)] (addDerived (noMatchRow demoBase))
      rfl,
    C10_missing_values_dropped.2.2 (noMatchRow demoBase) rfl⟩
